import Mathlib

/-!
# Verification of the decaf-postgresql schema layer

A shallow embedding of the schema-reconciliation module (`Schema.js`, given
here as `src/unnamed/part_000`) and of the PostgreSQL driver
(`src/lib/PostgreSQL.js`), together with proofs and refutations of the
frozen behavioural claims about them.

Conventions of the embedding:
* JavaScript scalar values are modelled by `JSVal` (numbers as `Int`;
  `NaN`-producing paths are noted where they matter).
* JavaScript objects used as string-keyed maps (`srcFields`, `dstFields`,
  `existingIndexes`) are modelled as lists with the exact JS-object
  behaviour: insertion order is preserved, assigning an existing key
  replaces the value in place, `delete` keeps the order of the rest.
* Each `SQL.update(...)` call site becomes one `Stmt` constructor; `render`
  reproduces the exact statement text the source builds (the driver joins
  array queries with a newline).
* Database effects (executing a statement, the `::regclass` existence
  probe) are oracles passed in as parameters.
-/

namespace DecafPG

/-! ## JavaScript values -/

/-- A JavaScript scalar value as it appears in schema field definitions and
driver `quote` arguments. -/
inductive JSVal where
  | num (n : Int)
  | str (s : String)
  | bool (b : Bool)
  | null
  | undef
deriving DecidableEq, Repr

/-- JavaScript truthiness of a scalar (`if (v)`). -/
def jsTruthy : JSVal → Bool
  | .num n => n ≠ 0
  | .str s => s ≠ ""
  | .bool b => b
  | .null => false
  | .undef => false

/-- JavaScript loose equality `v == t` against the non-numeric string
literals `'yes'` / `'no'` used by the driver: a string compares by value;
numbers and booleans coerce the literal with `ToNumber`, which yields `NaN`
for these literals, so the comparison is false; `null`/`undefined` are
loosely equal only to each other. -/
def jsLooseEqYesNo (v : JSVal) (t : String) : Bool :=
  match v with
  | .str s => s == t
  | _ => false

/-- JavaScript string coercion `v + ''` of a scalar. -/
def jsToString : JSVal → String
  | .num n => toString n
  | .str s => s
  | .bool true => "true"
  | .bool false => "false"
  | .null => "null"
  | .undef => "undefined"

/-! ## Field and schema descriptors (the TableDescriptor model) -/

/-- A declared field default: either a literal value or a value-producing
function, which the source invokes with no arguments (`field.defaultValue()`);
the function is modelled by the value that invocation returns. -/
inductive DefaultSpec where
  | lit (v : JSVal)
  | func (result : JSVal)
deriving DecidableEq, Repr

/-- Truthiness of the `defaultValue` member (`if (field.defaultValue)`):
a function object is always truthy, a literal by its value. -/
def defaultTruthy : DefaultSpec → Bool
  | .lit v => jsTruthy v
  | .func _ => true

/-- A field definition.  `autoIncrement` is `Option Bool` because the source
compares it with `===` (so an absent member and an explicit `false` are
distinguishable) while other uses are truthiness tests.  `size` is absent
(`none`, JS `undefined`) for non-varchar fields. -/
structure Field where
  name : String
  type : String
  size : Option Int := none
  autoIncrement : Option Bool := none
  reserved : Bool := false
  clientOnly : Bool := false
  defaultValue : Option DefaultSpec := none
deriving DecidableEq, Repr

/-- A schema / table descriptor.  `indexes = []` stands for the absent
member (the source only ever iterates it or tests it for truthiness, which
agree on this encoding).  The `onCreate` seeding hook is identified by a
numeric id (`none` = no hook). -/
structure Schema where
  name : String
  fields : List Field
  primaryKey : Option String := none
  indexes : List String := []
  onCreate : Option Nat := none
deriving DecidableEq, Repr

/-- JS truthiness of an optional string member (e.g. `schema.primaryKey`). -/
def jsTruthyStr : Option String → Bool
  | some s => s ≠ ""
  | none => false

/-- JS truthiness of `field.autoIncrement : Option Bool`. -/
def jsTruthyB : Option Bool → Bool
  | some b => b
  | none => false

/-- JS string coercion of a possibly-undefined string (undefined prints as
`"undefined"` when concatenated). -/
def optStr : Option String → String
  | some s => s
  | none => "undefined"

/-- JS string coercion of the `size` member (`'varchar(' + field.size + ')'`);
an absent size prints as `"undefined"`. -/
def renderSize : Option Int → String
  | some n => toString n
  | none => "undefined"

/-- `quoteName` from the source: wrap in double quotes. -/
def quoteName (s : String) : String := "\"" ++ s ++ "\""

/-! ## `defaultValue` (Schema.js, private helper) -/

/-- The type-based fallback of `defaultValue`: the `switch (field.type)`
with cases `'int'` and `'tinyint'` returning `0` and a default returning
the empty string. -/
def typeDefault (t : String) : JSVal :=
  if t = "int" then .num 0
  else if t = "tinyint" then .num 0
  else .str ""

/-- `defaultValue(field)` from the source: `if (field.defaultValue)` is a
truthiness test; a (truthy) function member is invoked, a truthy literal is
returned, anything else falls through to the type switch. -/
def defaultValue (field : Field) : JSVal :=
  match field.defaultValue with
  | some dv =>
      if defaultTruthy dv then
        match dv with
        | .func r => r
        | .lit v => v
      else typeDefault field.type
  | none => typeDefault field.type

/-! ## The driver's `quote` (PostgreSQL.js) -/

/-- One character of `addslashes`: backslash, double quote and single quote
get a backslash prefix (`replace(/([\\"'])/g, "\\$1")`), then the NUL
character becomes backslash + the digit 0 (`replace(/\0/g, "\\0")`);
the two sequential global replaces are equivalent to this single
character-wise map because the first replace introduces no NUL and the
second replaces only NULs. -/
def escapeChar (c : Char) : String :=
  if c = Char.ofNat 92 then String.mk [Char.ofNat 92, Char.ofNat 92]
  else if c = Char.ofNat 34 then String.mk [Char.ofNat 92, Char.ofNat 34]
  else if c = Char.ofNat 39 then String.mk [Char.ofNat 92, Char.ofNat 39]
  else if c = Char.ofNat 0 then String.mk [Char.ofNat 92, Char.ofNat 48]
  else String.mk [c]

/-- `addslashes(str)` from the source. -/
def addslashes (s : String) : String :=
  String.join (s.data.map escapeChar)

/-- `PosgreSQL.prototype.quote` on scalar values, mirroring the source's
if/else chain.  (The array branch of the source maps `quote` over the
elements through a reference to an undefined `MySQL` binding and is outside
the scalar domain modelled here.) -/
def pgQuote (v : JSVal) : String :=
  if v == .null || v == .undef then "NULL"
  else if v == .bool true || jsLooseEqYesNo v "yes" then "'1'"
  else if v == .bool false || jsLooseEqYesNo v "no" then "'0'"
  else "'" ++ addslashes (jsToString v) ++ "'"

/-! ## The driver constructor (PosgreSQL) -/

/-- The configuration object passed to the constructor.  Unknown members
(anything other than user/password/database/host/port) are kept, in
insertion order, in `extra`. -/
structure PGConfig where
  user : Option String := none
  password : Option String := none
  database : Option String := none
  host : Option String := none
  port : Option Int := none
  extra : List (String × String) := []
deriving DecidableEq, Repr

/-- `knownConfigOptions` from the source. -/
def knownConfigOptions : List String :=
  ["user", "password", "database", "host", "port"]

/-- JS truthiness of the optional numeric `port` member. -/
def jsTruthyInt : Option Int → Bool
  | some n => n ≠ 0
  | none => false

/-- The URL computation of the constructor, faithful to the source's
operator precedence: `config.host || 'localhost' + ':'` parses as
`config.host || ('localhost' + ':')`, so a provided host suppresses the
colon, and likewise a provided port suppresses the slash. -/
def mkUrl (c : PGConfig) : String :=
  let url := "jdbc:postgresql://"
  let url := url ++ (if jsTruthyStr c.host then optStr c.host else "localhost:")
  let url := url ++ (if jsTruthyInt c.port then renderSize c.port else "5432/")
  let url := url ++ optStr c.database
  let url := url ++ "?user=" ++ optStr c.user ++ "&password=" ++ optStr c.password
  (c.extra.filter (fun kv => !(knownConfigOptions.contains kv.1))).foldl
    (fun u kv => u ++ "&" ++ kv.1 ++ "=" ++ kv.2) url

/-- The state the constructor establishes: only `this.url` is assigned. -/
structure PGDriver where
  url : String
deriving DecidableEq, Repr

/-- The `PosgreSQL` constructor (name as in the source): throws when the
config is absent or any of user/password/database is `undefined`, otherwise
stores the computed URL. -/
def PosgreSQLCtor : Option PGConfig → Except String PGDriver
  | none => .error "PosgreSQL constructor: invalid configuration"
  | some c =>
      if c.user.isNone || c.password.isNone || c.database.isNone then
        .error "PosgreSQL constructor: invalid configuration"
      else .ok ⟨mkUrl c⟩

/-! ## Statements

Each `SQL.update(...)` call site of Schema.js becomes one constructor;
`render` reproduces the exact text executed (array queries are joined with
a newline by the driver's `update`). -/

inductive Stmt where
  | dropTableIfExists (table : String)
  | createTable (s : Schema)
  | createIndex (table index : String)
  | renameColumn (table oldName newName : String)
  | alterColumnType (table col : String) (src : Field)
  | addColumn (table : String) (f : Field)
  | backfill (table col value : String)
  | dropColumn (table col : String)
  | dropPrimaryKey (table : String)
  | addPrimaryKey (table key : String)
  | dropIndex (index : String)
  | addIndex (table index : String)
deriving DecidableEq, Repr

/-- The column-type text shared by `changeField`'s SET DATA TYPE branch:
`serial` for auto-increment fields, `varchar(size)` for varchar, otherwise
the type name verbatim. -/
def typeSql (f : Field) : String :=
  if jsTruthyB f.autoIncrement then "serial"
  else if f.type = "varchar" then "varchar(" ++ renderSize f.size ++ ")"
  else f.type

/-- The column definition text of `addField` (`"name" serial` etc.). -/
def colDefSql (f : Field) : String :=
  if jsTruthyB f.autoIncrement then quoteName f.name ++ " serial"
  else if f.type = "varchar" then quoteName f.name ++ " varchar(" ++ renderSize f.size ++ ")"
  else quoteName f.name ++ " " ++ f.type

/-- One line of the CREATE TABLE body for a (non-reserved, non-clientOnly)
field, with its trailing comma. -/
def createColLine (f : Field) : String :=
  if jsTruthyB f.autoIncrement then "\t" ++ quoteName f.name ++ " serial,"
  else if f.type = "varchar" then
    "\t" ++ quoteName f.name ++ " varchar(" ++ renderSize f.size ++ "),"
  else "\t" ++ quoteName f.name ++ " " ++ f.type ++ ","

/-- `query.join('\n')` as the driver's `update` does. -/
def joinLines : List String → String
  | [] => ""
  | [x] => x
  | x :: xs => x ++ "\n" ++ joinLines xs

/-- `index.replace(/,/g, '_')`. -/
def replaceCommas (s : String) : String :=
  String.mk (s.data.map (fun c => if c = ',' then '_' else c))

/-- `query[len].replace(/,$/, '')`: strip one trailing comma. -/
def stripTrailingComma (s : String) : String :=
  match s.data.reverse with
  | c :: rest => if c = ',' then String.mk rest.reverse else s
  | [] => s

/-- `create` tracks the name of the last auto-increment physical field as
an implicit primary key. -/
def implicitPk (fields : List Field) : Option String :=
  fields.foldl
    (fun acc f =>
      if !f.reserved && !f.clientOnly && jsTruthyB f.autoIncrement then some f.name else acc)
    none

/-- The lines of the CREATE TABLE statement built by `create`. -/
def createTableLines (s : Schema) : List String :=
  let body := ("CREATE TABLE " ++ quoteName s.name ++ " (")
      :: (s.fields.filter (fun f => !f.reserved && !f.clientOnly)).map createColLine
  let body :=
    if jsTruthyStr s.primaryKey then
      body ++ ["\tPrimary Key(" ++ quoteName (optStr s.primaryKey) ++ ")"]
    else
      match implicitPk s.fields with
      | some pk => body ++ ["\tPrimary Key(" ++ quoteName pk ++ ")"]
      | none =>
          match body.reverse with
          | lastLine :: revRest => (stripTrailingComma lastLine :: revRest).reverse
          | [] => body
  body ++ [")"]

/-- The exact SQL text each statement executes.  Whitespace (tab vs. three
spaces) mirrors the source literally; note the unquoted table name in the
DROP-column statement and the malformed drop-index statement. -/
def render : Stmt → String
  | .dropTableIfExists t => "DROP TABLE IF EXISTS " ++ quoteName t
  | .createTable s => joinLines (createTableLines s)
  | .createIndex t i =>
      "CREATE INDEX " ++ quoteName (t ++ "_" ++ i) ++ " ON " ++ quoteName t ++ "(" ++ i ++ ")"
  | .renameColumn t o n =>
      joinLines
        ["ALTER TABLE", "\t" ++ quoteName t, "RENAME COLUMN", "   " ++ quoteName o,
         "TO", "   " ++ quoteName n]
  | .alterColumnType t c src =>
      joinLines
        ["ALTER TABLE", "\t" ++ quoteName t, "ALTER COLUMN", "   " ++ quoteName c,
         "SET DATA TYPE", "\t" ++ typeSql src]
  | .addColumn t f =>
      joinLines ["ALTER TABLE", "\t" ++ quoteName t, "ADD", "\t" ++ colDefSql f]
  | .backfill t c v => "update " ++ quoteName t ++ " SET " ++ quoteName c ++ "=" ++ v
  | .dropColumn t c =>
      joinLines ["ALTER TABLE", "\t" ++ t, "DROP", "\t" ++ quoteName c]
  | .dropPrimaryKey t =>
      joinLines ["ALTER TABLE", "   " ++ quoteName t, "DROP", "   PRIMARY KEY"]
  | .addPrimaryKey t k =>
      joinLines
        ["ALTER TABLE", "   " ++ quoteName t, "ADD", "   PRIMARY KEY (" ++ quoteName k ++ ")"]
  | .dropIndex i => "ALTER TABLE DROP INDEX " ++ quoteName (replaceCommas i)
  | .addIndex t i =>
      "ALTER TABLE " ++ quoteName t ++ " ADD INDEX " ++ quoteName (replaceCommas i)
        ++ " (" ++ quoteName i ++ ")"

/-! ## JS-object field maps -/

/-- Assigning `obj[f.name] = f` on a JS object modelled as an ordered list:
an existing key keeps its position and gets the new value, a new key is
appended. -/
def objInsert (acc : List Field) (f : Field) : List Field :=
  if acc.any (fun g => g.name == f.name) then
    acc.map (fun g => if g.name == f.name then f else g)
  else acc ++ [f]

/-- Building a JS object keyed by field name from a field list. -/
def objFold (l : List Field) : List Field := l.foldl objInsert []

/-- `srcFields` of `change`: the schema's physical (non-reserved,
non-clientOnly) fields, keyed by name. -/
def srcFieldsOf (s : Schema) : List Field :=
  objFold (s.fields.filter (fun f => !f.reserved && !f.clientOnly))

/-- `dstFields` of `change`: the introspected fields keyed by name. -/
def dstFieldsOf (e : Schema) : List Field := objFold e.fields

/-! ## The reconciliation passes of `change` -/

/-- `fieldTypeCompare(srcField, dstField)` from the source.  For varchar it
compares `parseInt` of the sizes (`parseInt(undefined)` is `NaN` and
`NaN === NaN` is false, hence both sizes must be present and equal); for
int it compares `autoIncrement` with `===`; other equal types compare true. -/
def fieldTypeCompare (src dst : Field) : Bool :=
  if src.type == dst.type then
    if src.type == "varchar" then
      match src.size, dst.size with
      | some a, some b => a == b
      | _, _ => false
    else if src.type == "int" then src.autoIncrement == dst.autoIncrement
    else true
  else false

/-- `changeField(srcField, dstField)`: a RENAME COLUMN when the names
differ, then the SET DATA TYPE statement — which targets `dstField.name`,
the old name, exactly as the source does. -/
def changeFieldStmts (table : String) (src dst : Field) : List Stmt :=
  (if dst.name ≠ src.name then [Stmt.renameColumn table dst.name src.name] else [])
    ++ [Stmt.alterColumnType table dst.name src]

/-- `addField(field)`: the ALTER TABLE ADD statement followed by the UPDATE
that backfills every existing row with the field's computed default. -/
def addFieldStmts (table : String) (f : Field) : List Stmt :=
  [Stmt.addColumn table f,
   Stmt.backfill table f.name (pgQuote (defaultValue f))]

/-- First pass of `change`: for each schema field whose name exists among
the remaining destination fields, emit a retype when incompatible, delete
the destination entry and mark the field processed.  Returns (statements,
remaining destination fields, processed names). -/
def pass1 (table : String) : List Field → List Field → List Stmt × List Field × List String
  | [], dsts => ([], dsts, [])
  | s :: rest, dsts =>
      match dsts.find? (fun d => d.name == s.name) with
      | some d =>
          let stmts := if fieldTypeCompare s d then [] else changeFieldStmts table s d
          let r := pass1 table rest (dsts.filter (fun d2 => !(d2.name == s.name)))
          (stmts ++ r.1, r.2.1, s.name :: r.2.2)
      | none => pass1 table rest dsts

/-- `findDstField(srcField)`: the first remaining destination field (in
JS-object insertion order) type-compatible with the schema field. -/
def findDstField (src : Field) (dsts : List Field) : Option Field :=
  dsts.find? (fieldTypeCompare src)

/-- Second pass of `change` (rename detection): for each unprocessed schema
field, rename-and-retype the first compatible remaining destination field. -/
def pass2 (table : String) :
    List Field → List Field → List String → List Stmt × List Field × List String
  | [], dsts, proc => ([], dsts, proc)
  | s :: rest, dsts, proc =>
      if proc.contains s.name then pass2 table rest dsts proc
      else
        match findDstField s dsts with
        | some d =>
            let r := pass2 table rest (dsts.filter (fun d2 => !(d2.name == d.name)))
              (s.name :: proc)
            (changeFieldStmts table s d ++ r.1, r.2.1, r.2.2)
        | none => pass2 table rest dsts proc

/-- The primary-key pass: the if/else-if chain of `change`, including the
JS truthiness tests and the final `!==` value comparison. -/
def pkStmts (table : String) (schemaPk existingPk : Option String) : List Stmt :=
  if jsTruthyStr existingPk && !jsTruthyStr schemaPk then
    [Stmt.dropPrimaryKey table]
  else if jsTruthyStr schemaPk && !jsTruthyStr existingPk then
    [Stmt.addPrimaryKey table (optStr schemaPk)]
  else if schemaPk ≠ existingPk then
    [Stmt.dropPrimaryKey table, Stmt.addPrimaryKey table (optStr schemaPk)]
  else []

/-- `existingIndexes` as a JS object used as a set: duplicates collapse,
insertion order is preserved. -/
def buildExistingIdx (l : List String) : List String :=
  l.foldl (fun acc i => if acc.contains i then acc else acc ++ [i]) []

/-- One step of the desired-index loop: an index found in the remaining
existing set is deleted from it, otherwise it is queued as new. -/
def idxStep (p : List String × List String) (i : String) : List String × List String :=
  if p.1.contains i then (p.1.filter (fun x => !(x == i)), p.2) else (p.1, p.2 ++ [i])

/-- The index pass of `change`: drops of leftover existing indexes (in
existing order) followed by adds of new indexes (in schema order). -/
def indexStmts (table : String) (schemaIdx existingIdx : List String) : List Stmt :=
  let r := schemaIdx.foldl idxStep (buildExistingIdx existingIdx, [])
  r.1.map Stmt.dropIndex ++ r.2.map (Stmt.addIndex table)

/-- The full ordered statement sequence `Schema.change` executes for a
declared `schema` against the introspected descriptor `existing`. -/
def changeStmts (schema existing : Schema) : List Stmt :=
  let srcs := srcFieldsOf schema
  let p1 := pass1 schema.name srcs (dstFieldsOf existing)
  let p2 := pass2 schema.name srcs p1.2.1 p1.2.2
  p1.1 ++ p2.1
    ++ p2.2.1.map (fun d => Stmt.dropColumn schema.name d.name)
    ++ ((srcs.filter (fun s => !(p2.2.2.contains s.name))).map (addFieldStmts schema.name)).flatten
    ++ pkStmts schema.name schema.primaryKey existing.primaryKey
    ++ indexStmts schema.name schema.indexes existing.indexes

/-! ## `create`, the existence probe, and `add` -/

/-- The statements `Schema.create(name)` executes (no `drop` argument, as
called from `add`). -/
def createStmts (s : Schema) : List Stmt :=
  Stmt.createTable s :: s.indexes.map (Stmt.createIndex s.name)

/-- The probe query both `add` and `exists` issue. -/
def probeQuery (name : String) : String :=
  "SELECT " ++ quoteName name ++ "::regclass"

/-- `Schema.exists(name)`: the probe query succeeds (returns a row) exactly
when the `::regclass` cast resolves, i.e. when the table is present; the
`try` returns true on success and the `catch` false on failure.
`probeOk` is the oracle "the probe query succeeded". -/
def tableExists (probeOk : Bool) : Bool :=
  if probeOk then true else false

/-- Which path `Schema.add` takes after the same probe: the `try` block
falls through to `Schema.create` when the probe succeeds, the `catch`
block runs `Schema.change` when it fails. -/
inductive AddBranch where
  | create
  | reconcile
deriving DecidableEq, Repr

/-- The branch `add` takes, as a function of the probe outcome. -/
def addBranch (probeOk : Bool) : AddBranch :=
  if probeOk then .create else .reconcile

/-! ## Statement execution and error propagation -/

/-- The error `PostgreSQL.update` rethrows: the driver attaches the
offending statement text (`e.query = query`) before rethrowing. -/
structure SqlError where
  query : String
deriving DecidableEq, Repr

/-- Sequential execution of a statement list against a failure oracle
`fails`: statements run in order, the first failing statement aborts the
rest and produces the error carrying its text.  Returns the successfully
executed prefix and the error, if any. -/
def runStmts (fails : Stmt → Bool) : List Stmt → List Stmt × Option SqlError
  | [] => ([], none)
  | s :: rest =>
      if fails s then ([], some ⟨render s⟩)
      else
        let r := runStmts fails rest
        (s :: r.1, r.2)

/-- `Schema.add`'s try/catch structure around statement execution: the
probe and `Schema.create` share the outer `try`, so a failure inside
`create` also lands in the `catch`, which runs `Schema.change`; a failure
inside `change` is caught by the inner `catch` and only logged
(`console.log(e)`).  Returns the statements executed and the error that
escapes to `add`'s caller (always `none`). -/
def addRun (probeOk : Bool) (fails : Stmt → Bool) (schema existing : Schema) :
    List Stmt × Option SqlError :=
  if probeOk then
    match runStmts fails (createStmts schema) with
    | (execed, none) => (execed, none)
    | (execed, some _) =>
        (execed ++ (runStmts fails (changeStmts schema existing)).1, none)
  else
    ((runStmts fails (changeStmts schema existing)).1, none)

/-! ## Introspection: `getFromTable` -/

/-- A row of the catalog index query of `getFromTable` (pg_class/pg_index/
pg_attribute join). -/
structure IdxRow where
  table_name : String
  index_name : String
  column_name : String
deriving DecidableEq, Repr

/-- A row of the INFORMATION_SCHEMA.COLUMNS query of `getFromTable`. -/
structure ColRow where
  column_name : String
  udt_name : String
  column_default : Option String
  character_maximum_length : Option Int
deriving DecidableEq, Repr

/-- Whether the first list of characters is a prefix of the second. -/
def charsPrefix : List Char → List Char → Bool
  | [], _ => true
  | _ :: _, [] => false
  | p :: ps, c :: cs => p == c && charsPrefix ps cs

/-- `s.indexOf(pat) === 0`: the pattern occurs at position 0. -/
def strStartsWith (s pat : String) : Bool :=
  charsPrefix pat.data s.data

/-- Whether the pattern occurs as a contiguous substring of the text. -/
def charsContains (pat : List Char) : List Char → Bool
  | [] => charsPrefix pat []
  | c :: cs => charsPrefix pat (c :: cs) || charsContains pat cs

/-- `row.column_default.indexOf('nextval') !== -1`: some occurrence exists. -/
def containsNextval (s : String) : Bool :=
  charsContains "nextval".data s.data

/-- The field the column loop of `getFromTable` pushes for one catalog row:
`int4` renormalizes to `int`; a (truthy) default containing `nextval` marks
an auto-increment field with default 0; otherwise the raw default is kept
(null is first turned into undefined). -/
def fieldOfColRow (r : ColRow) : Field :=
  let type := if r.udt_name == "int4" then "int" else r.udt_name
  match r.column_default with
  | some dflt =>
      if containsNextval dflt then
        { name := r.column_name, type := type, size := r.character_maximum_length,
          autoIncrement := some true, defaultValue := some (.lit (.num 0)) }
      else
        { name := r.column_name, type := type, size := r.character_maximum_length,
          defaultValue := some (.lit (.str dflt)) }
  | none =>
      { name := r.column_name, type := type, size := r.character_maximum_length }

/-- The index loop of `getFromTable`: it pushes `row.column_name` exactly
when `row.index_name.indexOf('_pkey') === 0`, i.e. when the index name
starts with the string `_pkey`. -/
def extractIndexNames (rows : List IdxRow) : List String :=
  (rows.filter (fun r => strStartsWith r.index_name "_pkey")).map (·.column_name)

/-- `Schema.getFromTable(name)`, parameterized by the three catalog query
results (primary-key scalar, column rows, index rows).  The source stores
`schema.indexes` only when the array is nonempty; an empty list encodes the
absent member. -/
def getFromTable (name : String) (pkScalar : Option String)
    (cols : List ColRow) (idxRows : List IdxRow) : Schema :=
  { name := name,
    primaryKey := pkScalar,
    fields := cols.map fieldOfColRow,
    indexes := extractIndexNames idxRows }

/-! ## Seeding hooks and the process-ready trace -/

/-- One registration processed by `Schema.add`: the declared schema, the
probe outcome, and the introspected descriptor the reconcile branch uses. -/
structure RegEntry where
  sch : Schema
  probeOk : Bool
  existing : Schema
deriving Repr

/-- An observable event: a statement reaching the driver, or a seeding hook
being invoked. -/
inductive Event where
  | exec (s : Stmt)
  | hookRun (h : Nat)
deriving DecidableEq, Repr

/-- Whether an event is a hook invocation. -/
def Event.isHookRun : Event → Bool
  | .hookRun _ => true
  | _ => false

/-- The events one `Schema.add` emits in a failure-free run (the oracle
`fun _ => false` makes every statement succeed): only statement executions,
never hook invocations — `create` pushes `schema.onCreate` onto
`onStartFuncs` instead of calling it (the direct call is commented out in
the source). -/
def addEvents (r : RegEntry) : List Event :=
  ((addRun r.probeOk (fun _ => false) r.sch r.existing).1).map Event.exec

/-- The hooks one registration appends to `onStartFuncs`: `create` queues
the schema's `onCreate` at its end, the reconcile branch queues nothing. -/
def queuedOf (r : RegEntry) : List Nat :=
  if r.probeOk then
    match r.sch.onCreate with
    | some h => [h]
    | none => []
  else []

/-- All events of the registration phase, in registration order. -/
def startupEvents (regs : List RegEntry) : List Event :=
  (regs.map addEvents).flatten

/-- The contents of `onStartFuncs` after all registrations, in registration
order. -/
def queuedHooks (regs : List RegEntry) : List Nat :=
  (regs.map queuedOf).flatten

/-- The events of `onStart`, run once by `builtin.atStart` at the
process-ready point: each queued hook invoked in queue order. -/
def readyEvents (regs : List RegEntry) : List Event :=
  (queuedHooks regs).map Event.hookRun

/-- The whole observable trace of a process: the registration phase
followed by the single process-ready point. -/
def fullTrace (regs : List RegEntry) : List Event :=
  startupEvents regs ++ readyEvents regs

/-! ## The backfill-adjacency predicate (for the AddColumn contract) -/

/-- Whether a statement is an ALTER TABLE ADD of a column. -/
def isAddColumn : Stmt → Bool
  | .addColumn _ _ => true
  | _ => false

/-- Every ALTER TABLE ADD in the list is immediately followed by the UPDATE
that backfills that column with its computed default. -/
def addsBackfilled : List Stmt → Bool
  | [] => true
  | .addColumn t f :: rest =>
      (match rest with
       | .backfill t2 c v :: _ =>
           t2 == t && c == f.name && v == pgQuote (defaultValue f)
       | _ => false)
      && addsBackfilled rest
  | _ :: rest => addsBackfilled rest

/-! ## Descriptor-level application of statements

Modelled from the spec: executing the emitted statements is done by the
live PostgreSQL engine, which is not part of src/; this gives the emitted
statements their descriptor-level meaning (spec sections 3, 4.2 and 8:
add/drop/rename/retype columns, primary-key and index changes), so that
"applying diff(D, E) to produce E'" can be stated. -/

/-- Effect of one emitted statement on a table descriptor. -/
def applyStmt (e : Schema) : Stmt → Schema
  | .renameColumn _ o n =>
      { e with fields := e.fields.map (fun f => if f.name == o then { f with name := n } else f) }
  | .alterColumnType _ c src =>
      { e with fields := e.fields.map (fun f =>
          if f.name == c then
            { f with
              type := if jsTruthyB src.autoIncrement then "int" else src.type,
              size := src.size,
              autoIncrement := if jsTruthyB src.autoIncrement then some true else none }
          else f) }
  | .addColumn _ f => { e with fields := e.fields ++ [f] }
  | .backfill _ _ _ => e
  | .dropColumn _ c => { e with fields := e.fields.filter (fun f => !(f.name == c)) }
  | .dropPrimaryKey _ => { e with primaryKey := none }
  | .addPrimaryKey _ k => { e with primaryKey := some k }
  | .dropIndex i => { e with indexes := e.indexes.filter (fun x => !(x == i)) }
  | .addIndex _ i => { e with indexes := e.indexes ++ [i] }
  | .dropTableIfExists _ => e
  | .createTable _ => e
  | .createIndex _ _ => e

/-- Effect of a statement sequence, applied in order. -/
def applyStmts (l : List Stmt) (e : Schema) : Schema :=
  l.foldl applyStmt e

/-! ## Structural equivalence -/

/-- Structural equivalence of a declared descriptor and an existing one:
the physical (non-reserved, non-clientOnly) declared fields and the
existing fields carry the same names with type-compatible definitions, the
primary keys are equal, and the index lists are equal. -/
def structEquiv (d e : Schema) : Bool :=
  (srcFieldsOf d).all (fun s =>
      (dstFieldsOf e).any (fun f => f.name == s.name && fieldTypeCompare s f))
    && (dstFieldsOf e).all (fun f =>
        (srcFieldsOf d).any (fun s => f.name == s.name))
    && d.primaryKey == e.primaryKey
    && d.indexes == e.indexes

/-! ## Concrete instances used by counterexamples and witnesses -/

/-- A descriptor that lists the same index twice. -/
def dupIdxSchema : Schema :=
  { name := "t", fields := [{ name := "id", type := "int" }], indexes := ["a", "a"] }

/-- An equivalent declared/existing descriptor (used to witness the
idempotence theorem). -/
def eqSchema : Schema :=
  { name := "t",
    fields := [{ name := "id", type := "int", autoIncrement := some true },
               { name := "b", type := "varchar", size := some 10 }],
    primaryKey := some "id", indexes := ["b"] }

/-- Desired field of the rename-detection witness. -/
def c3d : Field := { name := "d", type := "int" }

/-- Existing fields of the rename-detection witness: an incompatible field,
then two compatible candidates in order. -/
def c3cs : List Field :=
  [{ name := "x", type := "varchar", size := some 5 },
   { name := "c", type := "int" },
   { name := "e2", type := "int" }]

/-- The first compatible candidate in `c3cs`. -/
def c3c : Field := { name := "c", type := "int" }

/-- Schema whose reconciliation against `c4ex` emits statements (a new
column is added). -/
def c4sch : Schema :=
  { name := "t",
    fields := [{ name := "id", type := "int" },
               { name := "d", type := "varchar", size := some 20 }] }

/-- Existing descriptor lacking the new column. -/
def c4ex : Schema :=
  { name := "t", fields := [{ name := "id", type := "int" }] }

/-- Catalog column rows of the introspection example: a serial primary-key
column and a plain column. -/
def c5cols : List ColRow :=
  [{ column_name := "id", udt_name := "int4",
     column_default := some "nextval('widgets_id_seq'::regclass)",
     character_maximum_length := none },
   { column_name := "c", udt_name := "int4", column_default := none,
     character_maximum_length := none }]

/-- Catalog index rows of the introspection example: the implicit
primary-key index and one secondary index. -/
def c5rows : List IdxRow :=
  [{ table_name := "widgets", index_name := "widgets_pkey", column_name := "id" },
   { table_name := "widgets", index_name := "widgets_c_idx", column_name := "c" }]

/-- A field declaring the literal default `0` on a varchar column. -/
def c6field : Field :=
  { name := "g", type := "varchar", size := some 10, defaultValue := some (.lit (.num 0)) }

/-- A field declaring the truthy literal default `7`. -/
def c6intField : Field :=
  { name := "n", type := "int", defaultValue := some (.lit (.num 7)) }

/-- Two registrations, both creating their table, each with a seeding hook. -/
def c8regs : List RegEntry :=
  [{ sch := { name := "a", fields := [{ name := "id", type := "int" }], onCreate := some 1 },
     probeOk := true, existing := { name := "a", fields := [] } },
   { sch := { name := "b", fields := [{ name := "id", type := "int" }], onCreate := some 2 },
     probeOk := true, existing := { name := "b", fields := [] } }]

/-- A complete driver configuration. -/
def c10cfg : PGConfig :=
  { user := some "u", password := some "p", database := some "db" }

/-! ## Helper lemmas -/

/-- A fold that only appends to the URL string extends its initial value. -/
theorem foldl_append_extends (l : List (String × String)) (u : String) :
    ∃ r, l.foldl (fun a kv => a ++ "&" ++ kv.1 ++ "=" ++ kv.2) u = u ++ r := by
  induction l generalizing u with
  | nil => exact ⟨"", by simp⟩
  | cons kv tl ih =>
      obtain ⟨r, hr⟩ := ih (u ++ "&" ++ kv.1 ++ "=" ++ kv.2)
      refine ⟨"&" ++ kv.1 ++ "=" ++ kv.2 ++ r, ?_⟩
      rw [List.foldl_cons, hr]
      simp [String.append_assoc]

/-- `changeField` emits only RENAME/SET DATA TYPE statements. -/
theorem changeFieldStmts_no_add (t : String) (s d : Field) :
    (changeFieldStmts t s d).all (fun x => !isAddColumn x) = true := by
  unfold changeFieldStmts
  split <;> simp [isAddColumn]

/-- The exact-name pass emits no ALTER TABLE ADD statement. -/
theorem pass1_no_add (t : String) (srcs dsts : List Field) :
    ((pass1 t srcs dsts).1).all (fun x => !isAddColumn x) = true := by
  induction srcs generalizing dsts with
  | nil => simp [pass1]
  | cons s rest ih =>
      unfold pass1
      cases hfind : dsts.find? (fun d => d.name == s.name) with
      | none => simpa using ih dsts
      | some d =>
          by_cases hc : fieldTypeCompare s d
          · simpa [hc] using ih (dsts.filter (fun d2 => !(d2.name == s.name)))
          · simp only [hc, if_false, List.all_append, Bool.and_eq_true]
            exact ⟨changeFieldStmts_no_add t s d,
              ih (dsts.filter (fun d2 => !(d2.name == s.name)))⟩

/-- The rename pass emits no ALTER TABLE ADD statement. -/
theorem pass2_no_add (t : String) (srcs dsts : List Field) (proc : List String) :
    ((pass2 t srcs dsts proc).1).all (fun x => !isAddColumn x) = true := by
  induction srcs generalizing dsts proc with
  | nil => simp [pass2]
  | cons s rest ih =>
      rw [pass2]
      split
      · exact ih dsts proc
      · split
        · simp only [List.all_append, Bool.and_eq_true]
          exact ⟨changeFieldStmts_no_add t s _, ih _ _⟩
        · exact ih dsts proc

/-- The primary-key pass emits no ALTER TABLE ADD-column statement. -/
theorem pkStmts_no_add (t : String) (p q : Option String) :
    (pkStmts t p q).all (fun x => !isAddColumn x) = true := by
  unfold pkStmts
  split_ifs <;> simp [isAddColumn]

/-- The index pass emits no ALTER TABLE ADD-column statement. -/
theorem indexStmts_no_add (t : String) (si ei : List String) :
    (indexStmts t si ei).all (fun x => !isAddColumn x) = true := by
  unfold indexStmts
  simp [List.all_append, List.all_map, Function.comp, isAddColumn]

/-- The drop pass emits no ALTER TABLE ADD-column statement. -/
theorem map_dropColumn_no_add (n : String) (l : List Field) :
    ((l.map (fun d => Stmt.dropColumn n d.name)).all (fun x => !isAddColumn x)) = true := by
  simp [List.all_map, Function.comp, isAddColumn]

/-- Prepending statements without ALTER TABLE ADD does not affect the
backfill-adjacency predicate. -/
theorem addsBackfilled_append_left (l1 l2 : List Stmt)
    (h : l1.all (fun x => !isAddColumn x) = true) :
    addsBackfilled (l1 ++ l2) = addsBackfilled l2 := by
  induction l1 with
  | nil => rfl
  | cons x rest ih =>
      simp only [List.all_cons, Bool.and_eq_true] at h
      obtain ⟨hx, hrest⟩ := h
      have hr := ih hrest
      cases x <;> simp_all [isAddColumn, addsBackfilled]

/-- A list without ALTER TABLE ADD satisfies the predicate trivially. -/
theorem addsBackfilled_of_no_add (l : List Stmt)
    (h : l.all (fun x => !isAddColumn x) = true) :
    addsBackfilled l = true := by
  simpa using addsBackfilled_append_left l [] h

/-- The add pass is a flat list of (ADD, backfill) pairs, so it satisfies
the predicate whatever follows it. -/
theorem addsBackfilled_adds (t : String) (fs : List Field) (tail : List Stmt)
    (ht : addsBackfilled tail = true) :
    addsBackfilled ((fs.map (addFieldStmts t)).flatten ++ tail) = true := by
  induction fs with
  | nil => simpa using ht
  | cons f rest ih =>
      simp only [List.map_cons, List.flatten_cons, addFieldStmts, List.cons_append,
        List.append_assoc]
      simp [addsBackfilled, ih]

/-! ## C7 -/

/-- C7: in every reconciliation, each ALTER TABLE ADD statement is
immediately followed by the UPDATE statement that sets the new column in
every existing row to the field's computed default value
(`SQL.quote(defaultValue(field))`); `addField` consists of exactly that
pair, and the UPDATE renders as `update "t" SET "col"=value`. -/
theorem addColumn_always_backfilled :
    (∀ schema existing : Schema, addsBackfilled (changeStmts schema existing) = true) ∧
    (∀ t c v, render (Stmt.backfill t c v) =
      "update " ++ quoteName t ++ " SET " ++ quoteName c ++ "=" ++ v) ∧
    (∀ t f, addFieldStmts t f =
      [Stmt.addColumn t f, Stmt.backfill t f.name (pgQuote (defaultValue f))]) := by
  refine ⟨?_, fun t c v => rfl, fun t f => rfl⟩
  intro schema existing
  simp only [changeStmts, List.append_assoc]
  rw [addsBackfilled_append_left _ _ (pass1_no_add _ _ _)]
  rw [addsBackfilled_append_left _ _ (pass2_no_add _ _ _ _)]
  rw [addsBackfilled_append_left _ _ (map_dropColumn_no_add _ _)]
  exact addsBackfilled_adds _ _ _
    (addsBackfilled_of_no_add _
      (by simp only [List.all_append, Bool.and_eq_true]
          exact ⟨pkStmts_no_add _ _ _, indexStmts_no_add _ _ _⟩))

/-- Characterization of a failed statement run: the list splits at the
first failing statement, everything before it was executed, nothing after
it was, and the error carries that statement's text. -/
theorem runStmts_failure (fails : Stmt → Bool) (l : List Stmt) (e : SqlError)
    (h : (runStmts fails l).2 = some e) :
    ∃ pre s post, l = pre ++ s :: post ∧ (∀ x ∈ pre, fails x = false) ∧
      fails s = true ∧ e.query = render s ∧ (runStmts fails l).1 = pre := by
  induction l with
  | nil => simp [runStmts] at h
  | cons s rest ih =>
      by_cases hs : fails s
      · rw [runStmts, if_pos hs] at h
        simp only [Option.some.injEq] at h
        refine ⟨[], s, rest, rfl, by simp, hs, ?_, ?_⟩
        · rw [← h]
        · rw [runStmts, if_pos hs]
      · rw [runStmts, if_neg hs] at h
        simp only at h
        obtain ⟨pre, s', post, hl, hpre, hfs, he, hex⟩ := ih h
        refine ⟨s :: pre, s', post, by rw [hl]; rfl, ?_, hfs, he, ?_⟩
        · intro x hx
          rcases List.mem_cons.mp hx with hx | hx
          · subst hx
            exact Bool.eq_false_iff.mpr hs
          · exact hpre x hx
        · rw [runStmts, if_neg hs]
          simp [hex]

/-- Folding JS-object insertion over fields with pairwise-distinct names
just appends them. -/
theorem objFold_acc_id (l : List Field) :
    ∀ acc : List Field, (((acc ++ l).map Field.name).Nodup) →
      l.foldl objInsert acc = acc ++ l := by
  induction l with
  | nil => intro acc _; simp
  | cons f rest ih =>
      intro acc h
      have hnd := h
      rw [List.map_append, List.nodup_append] at hnd
      have hnotin : acc.any (fun g => g.name == f.name) = false := by
        rw [List.any_eq_false]
        intro g hg
        simp only [beq_iff_eq]
        intro hEq
        have h1 : g.name ∈ acc.map Field.name := List.mem_map_of_mem Field.name hg
        have h2 : g.name ∈ Field.name f :: rest.map Field.name := by simp [hEq]
        exact hnd.2.2 h1 h2
      have step : objInsert acc f = acc ++ [f] := by
        simp [objInsert, hnotin]
      rw [List.foldl_cons, step, ih (acc ++ [f]) (by simpa using h)]
      simp

/-- A field list with pairwise-distinct names is its own JS-object map. -/
theorem objFold_nodup_id (l : List Field) (h : (l.map Field.name).Nodup) :
    objFold l = l := by
  simpa using objFold_acc_id l [] (by simpa using h)

/-- `dstFields` of a descriptor with distinct field names is the field list
itself. -/
theorem dstFieldsOf_nodup_id (e : Schema) (h : (e.fields.map Field.name).Nodup) :
    dstFieldsOf e = e.fields :=
  objFold_nodup_id e.fields h

/-- `find?` finding an element splits the list at its first hit. -/
theorem find?_split {α : Type} (p : α → Bool) (l : List α) (c : α)
    (h : l.find? p = some c) :
    p c = true ∧ ∃ pre post, l = pre ++ c :: post ∧ ∀ x ∈ pre, p x = false := by
  induction l with
  | nil => simp [List.find?] at h
  | cons a rest ih =>
      by_cases ha : p a
      · rw [List.find?_cons_of_pos _ ha] at h
        cases h
        exact ⟨ha, [], rest, rfl, by simp⟩
      · rw [List.find?_cons_of_neg _ ha] at h
        obtain ⟨hp, pre, post, hl, hpre⟩ := ih h
        refine ⟨hp, a :: pre, post, by rw [hl]; rfl, ?_⟩
        intro x hx
        rcases List.mem_cons.mp hx with hx | hx
        · subst hx
          exact Bool.eq_false_iff.mpr ha
        · exact hpre x hx

/-- JS-object insertion preserves distinctness of the key names. -/
theorem objInsert_names_nodup (acc : List Field) (f : Field)
    (h : (acc.map Field.name).Nodup) :
    ((objInsert acc f).map Field.name).Nodup := by
  unfold objInsert
  by_cases hc : acc.any (fun g => g.name == f.name) = true
  · rw [if_pos hc]
    have heq : (acc.map (fun g => if g.name == f.name then f else g)).map Field.name
        = acc.map Field.name := by
      rw [List.map_map]
      apply List.map_congr_left
      intro g _
      by_cases hg2 : (g.name == f.name) = true
      · simp only [Function.comp_apply, hg2, if_true]
        exact (beq_iff_eq.mp hg2).symm
      · simp only [Function.comp_apply, hg2]
        rfl
    rw [heq]
    exact h
  · rw [if_neg hc]
    simp only [List.map_append, List.map_cons, List.map_nil]
    rw [List.nodup_append]
    refine ⟨h, List.nodup_singleton _, ?_⟩
    intro a ha hb
    rw [List.mem_singleton] at hb
    subst hb
    obtain ⟨g, hg, hgname⟩ := List.mem_map.mp ha
    have hc' : acc.any (fun g => g.name == f.name) = false := Bool.eq_false_iff.mpr hc
    rw [List.any_eq_false] at hc'
    exact hc' g hg (by simp [hgname])

/-- Any JS-object field map has pairwise-distinct key names. -/
theorem objFold_names_nodup (l : List Field) :
    ((objFold l).map Field.name).Nodup := by
  suffices hgen : ∀ acc : List Field, (acc.map Field.name).Nodup →
      ((l.foldl objInsert acc).map Field.name).Nodup by
    exact hgen [] (by simp)
  induction l with
  | nil => intro acc h; simpa using h
  | cons f rest ih =>
      intro acc h
      rw [List.foldl_cons]
      exact ih _ (objInsert_names_nodup acc f h)

/-- The declared field map has pairwise-distinct key names. -/
theorem srcFieldsOf_names_nodup (s : Schema) :
    ((srcFieldsOf s).map Field.name).Nodup := by
  unfold srcFieldsOf
  exact objFold_names_nodup _

/-- The existing field map has pairwise-distinct key names. -/
theorem dstFieldsOf_names_nodup (e : Schema) :
    ((dstFieldsOf e).map Field.name).Nodup := by
  unfold dstFieldsOf
  exact objFold_names_nodup _

/-- In a list with distinct names, the name lookup finds exactly the member
with that name. -/
theorem find_by_name_unique (dsts : List Field) (x : Field)
    (hd : (dsts.map Field.name).Nodup) (hx : x ∈ dsts) :
    dsts.find? (fun d => d.name == x.name) = some x := by
  induction dsts with
  | nil => cases hx
  | cons y ys ih =>
      rcases List.mem_cons.mp hx with rfl | hmem
      · rw [List.find?_cons_of_pos _ (by simp)]
      · have hyne : (y.name == x.name) = false := by
          rw [beq_eq_false_iff_ne]
          intro hEq
          have hmemname : x.name ∈ ys.map Field.name := List.mem_map_of_mem _ hmem
          rw [List.map_cons, List.nodup_cons] at hd
          exact hd.1 (hEq ▸ hmemname)
        rw [List.find?_cons_of_neg _ (by simp [hyne])]
        exact ih (by rw [List.map_cons, List.nodup_cons] at hd; exact hd.2) hmem

/-- When every schema field has a same-named compatible destination field,
the exact-name pass emits nothing, consumes all matched destinations and
marks every schema field processed. -/
theorem pass1_matched (t : String) (srcs : List Field) :
    ∀ dsts : List Field,
      (∀ s ∈ srcs, ∃ f ∈ dsts, f.name = s.name ∧ fieldTypeCompare s f = true) →
      ((srcs.map Field.name).Nodup) → ((dsts.map Field.name).Nodup) →
      pass1 t srcs dsts =
        ([], dsts.filter (fun f => !(srcs.any (fun s => f.name == s.name))),
          srcs.map Field.name) := by
  induction srcs with
  | nil =>
      intro dsts _ _ _
      simp [pass1]
  | cons s rest ih =>
      intro dsts hmatch hs hd
      obtain ⟨f, hfmem, hfname, hfcomp⟩ := hmatch s (List.mem_cons_self s rest)
      have hfind : dsts.find? (fun d => d.name == s.name) = some f := by
        have hfu := find_by_name_unique dsts f hd hfmem
        rw [hfname] at hfu
        exact hfu
      rw [List.map_cons, List.nodup_cons] at hs
      have hrec := ih (dsts.filter (fun d2 => !(d2.name == s.name)))
        (by
          intro s' hs'
          obtain ⟨f', hf'mem, hf'name, hf'comp⟩ := hmatch s' (List.mem_cons_of_mem s hs')
          refine ⟨f', List.mem_filter.mpr ⟨hf'mem, ?_⟩, hf'name, hf'comp⟩
          simp only [Bool.not_eq_eq_eq_not, Bool.not_true, beq_eq_false_iff_ne, hf'name]
          intro hEq
          exact hs.1 (hEq ▸ List.mem_map_of_mem Field.name hs'))
        hs.2
        ((hd.sublist (List.Sublist.map Field.name (List.filter_sublist dsts))))
      rw [pass1, hfind]
      simp only [hfcomp, if_true, hrec, List.nil_append]
      rw [List.filter_filter]
      refine congrArg (fun z => (([] : List Stmt), z, s.name :: rest.map Field.name)) ?_
      apply List.filter_congr
      intro a _
      simp only [List.any_cons, Bool.not_or, Bool.not_eq_eq_eq_not]
      rw [Bool.and_comm]

/-- The rename pass does nothing when every schema field is already
processed. -/
theorem pass2_skip (t : String) (srcs : List Field) :
    ∀ (dsts : List Field) (proc : List String),
      (∀ s ∈ srcs, s.name ∈ proc) →
      pass2 t srcs dsts proc = ([], dsts, proc) := by
  induction srcs with
  | nil => intro dsts proc _; rfl
  | cons s rest ih =>
      intro dsts proc h
      have hc : proc.contains s.name = true := by
        simp [h s (List.mem_cons_self s rest)]
      rw [pass2, if_pos hc]
      exact ih dsts proc (fun s' hs' => h s' (List.mem_cons_of_mem s hs'))

/-- Identical primary keys produce no primary-key statement. -/
theorem pkStmts_same (t : String) (p : Option String) : pkStmts t p p = [] := by
  unfold pkStmts
  split_ifs <;> simp_all

/-- The existing-index set built from a duplicate-free list is that list. -/
theorem buildIdx_acc_id (l : List String) :
    ∀ acc : List String, (acc ++ l).Nodup →
      l.foldl (fun acc i => if acc.contains i then acc else acc ++ [i]) acc = acc ++ l := by
  induction l with
  | nil => intro acc _; simp
  | cons i rest ih =>
      intro acc h
      have hndh := h
      rw [List.nodup_append] at hndh
      have hmem : i ∉ acc := fun hm => hndh.2.2 hm (List.mem_cons_self i rest)
      rw [List.foldl_cons, if_neg (by simp [hmem])]
      rw [ih (acc ++ [i]) (by simpa using h)]
      simp

/-- `buildExistingIdx` on a duplicate-free list is the identity. -/
theorem buildIdx_nodup_id (l : List String) (h : l.Nodup) : buildExistingIdx l = l := by
  unfold buildExistingIdx
  rw [buildIdx_acc_id l [] (by simpa using h)]
  rfl

/-- Folding the desired indexes over a remaining set that contains them all
consumes each one and queues nothing new. -/
theorem idxFold_consume (l : List String) :
    ∀ rem new : List String, l.Nodup → (∀ i ∈ l, i ∈ rem) →
      l.foldl idxStep (rem, new) = (rem.filter (fun x => !(l.contains x)), new) := by
  induction l with
  | nil =>
      intro rem new _ _
      simp [List.contains]
  | cons i rest ih =>
      intro rem new hnd hsub
      have hi : rem.contains i = true := by
        simp [hsub i (List.mem_cons_self i rest)]
      rw [List.nodup_cons] at hnd
      rw [List.foldl_cons]
      have hstep : idxStep (rem, new) i = (rem.filter (fun x => !(x == i)), new) := by
        simp [idxStep, hsub i (List.mem_cons_self i rest)]
      rw [hstep]
      rw [ih (rem.filter (fun x => !(x == i))) new hnd.2
        (by
          intro j hj
          refine List.mem_filter.mpr ⟨hsub j (List.mem_cons_of_mem i hj), ?_⟩
          simp only [Bool.not_eq_eq_eq_not, Bool.not_true, beq_eq_false_iff_ne]
          intro hEq
          exact hnd.1 (hEq ▸ hj))]
      rw [List.filter_filter]
      refine congrArg (fun z => (z, new)) ?_
      apply List.filter_congr
      intro a _
      simp only [List.contains_cons, Bool.not_or, Bool.not_eq_eq_eq_not]
      rw [Bool.and_comm]

/-- Equal, duplicate-free index lists produce no index statement. -/
theorem indexStmts_same (t : String) (l : List String) (h : l.Nodup) :
    indexStmts t l l = [] := by
  unfold indexStmts
  rw [buildIdx_nodup_id l h]
  rw [idxFold_consume l l [] h (fun i hi => hi)]
  have hfilter : l.filter (fun x => !(l.contains x)) = [] := by
    rw [List.filter_eq_nil_iff]
    intro a ha
    simp [ha]
  simp [hfilter]

/-- Structural equivalence (plus duplicate-free indexes) makes `change`
emit nothing. -/
theorem changeStmts_nil_of_equiv (d e : Schema) (h : structEquiv d e = true)
    (hidx : d.indexes.Nodup) : changeStmts d e = [] := by
  unfold structEquiv at h
  simp only [Bool.and_eq_true, List.all_eq_true, List.any_eq_true] at h
  obtain ⟨⟨⟨h1, h2⟩, hpk⟩, hix⟩ := h
  have hpk' : d.primaryKey = e.primaryKey := by
    exact beq_iff_eq.mp hpk
  have hix' : d.indexes = e.indexes := by
    exact beq_iff_eq.mp hix
  have hmatch : ∀ s ∈ srcFieldsOf d, ∃ f ∈ dstFieldsOf e,
      f.name = s.name ∧ fieldTypeCompare s f = true := by
    intro s hs
    obtain ⟨f, hf, hcond⟩ := h1 s hs
    exact ⟨f, hf, beq_iff_eq.mp hcond.1, hcond.2⟩
  have hp1 := pass1_matched d.name (srcFieldsOf d) (dstFieldsOf e) hmatch
    (srcFieldsOf_names_nodup d) (dstFieldsOf_names_nodup e)
  have hleft : (dstFieldsOf e).filter
      (fun f => !((srcFieldsOf d).any (fun s => f.name == s.name))) = [] := by
    rw [List.filter_eq_nil_iff]
    intro f hf
    obtain ⟨s, hsmem, hsname⟩ := h2 f hf
    simp only [Bool.not_eq_eq_eq_not, Bool.not_true, Bool.not_eq_false, List.any_eq_true]
    exact ⟨s, hsmem, hsname⟩
  rw [hleft] at hp1
  have hp2 := pass2_skip d.name (srcFieldsOf d) []
    ((srcFieldsOf d).map Field.name)
    (fun s hs => List.mem_map_of_mem Field.name hs)
  have hadds : (srcFieldsOf d).filter
      (fun s => !((((srcFieldsOf d).map Field.name)).contains s.name)) = [] := by
    rw [List.filter_eq_nil_iff]
    intro s hs
    have hmem : s.name ∈ (srcFieldsOf d).map Field.name :=
      List.mem_map_of_mem Field.name hs
    simp [hmem]
  simp only [changeStmts, hp1, hp2, hadds, List.map_nil, List.flatten_nil,
    List.nil_append, List.append_nil]
  rw [hpk', ← hix']
  rw [pkStmts_same, indexStmts_same d.name d.indexes hidx]
  simp

/-! ## C2 -/

/-- C2 counterexample: the claim quantifies over every structurally
equivalent pair.  A descriptor that lists the same index twice is
structurally equivalent to itself, yet reconciling it against itself emits
an AddIndex: the JS object used as the existing-index set collapses the
duplicate, so the second occurrence of the desired index no longer finds
it and is treated as new. -/
theorem change_dup_index_not_empty :
    structEquiv dupIdxSchema dupIdxSchema = true ∧
    changeStmts dupIdxSchema dupIdxSchema = [Stmt.addIndex "t" "a"] ∧
    changeStmts dupIdxSchema dupIdxSchema ≠ [] := by
  decide

/-- C2 (amended): for every desired descriptor D and existing descriptor E
that are structurally equivalent and whose (shared) index list has no
duplicate entry, reconciliation emits the empty statement sequence; and
consequently applying that (empty) diff to E yields an E' with
diff(D, E') empty as well.  (Duplicate declared field names need no side
condition: the JS field objects collapse them, which the embedding
reproduces.) -/
theorem change_empty_on_equiv (d e : Schema) (h : structEquiv d e = true)
    (hidx : d.indexes.Nodup) :
    changeStmts d e = [] ∧
    changeStmts d (applyStmts (changeStmts d e) e) = [] := by
  have h1 := changeStmts_nil_of_equiv d e h hidx
  refine ⟨h1, ?_⟩
  rw [h1]
  exact h1

/-- C2 witness: a descriptor equivalent to itself (duplicate-free indexes)
reconciles to the empty sequence, and stays empty after applying it. -/
theorem change_empty_on_equiv_witness :
    changeStmts eqSchema eqSchema = [] ∧
    changeStmts eqSchema (applyStmts (changeStmts eqSchema eqSchema) eqSchema) = [] :=
  change_empty_on_equiv eqSchema eqSchema (by decide) (by decide)

/-! ## C3 -/

/-- C3: for a desired physical field `d` whose name is absent from the
existing field set, reconciliation against existing fields `cs` (distinct
names) emits exactly one rename-and-retype pair — the RENAME COLUMN from
the chosen candidate `c` to `d.name` followed by the SET DATA TYPE — and
then drops for the other existing fields; no drop-plus-add is used for
`d`, and the chosen candidate is the *first* type-compatible field of `cs`
in existing order. -/
theorem change_renames_first_compatible (d c : Field) (cs : List Field) (tn en : String)
    (hres : d.reserved = false) (hcl : d.clientOnly = false)
    (hnodup : (cs.map Field.name).Nodup)
    (hnew : ∀ x ∈ cs, ¬ x.name = d.name)
    (hfind : findDstField d cs = some c) :
    changeStmts { name := tn, fields := [d] } { name := en, fields := cs } =
      Stmt.renameColumn tn c.name d.name :: Stmt.alterColumnType tn c.name d
        :: (cs.filter (fun x => !(x.name == c.name))).map (fun x => Stmt.dropColumn tn x.name)
    ∧ fieldTypeCompare d c = true
    ∧ (∃ pre post, cs = pre ++ c :: post ∧ ∀ x ∈ pre, fieldTypeCompare d x = false) := by
  obtain ⟨hcompat, pre, post, hsplit, hpre⟩ := find?_split _ cs c hfind
  have hcmem : c ∈ cs := by rw [hsplit]; exact List.mem_append_right _ (List.mem_cons_self _ _)
  refine ⟨?_, hcompat, pre, post, hsplit, hpre⟩
  have hsrc : srcFieldsOf { name := tn, fields := [d] } = [d] := by
    simp [srcFieldsOf, objFold, objInsert, hres, hcl]
  have hdst : dstFieldsOf { name := en, fields := cs } = cs :=
    dstFieldsOf_nodup_id _ hnodup
  have hnone : cs.find? (fun f => f.name == d.name) = none := by
    rw [List.find?_eq_none]
    intro x hx
    simp [hnew x hx]
  have hp1 : pass1 tn [d] cs = ([], cs, []) := by
    rw [pass1, hnone]
    rfl
  have hrename : c.name ≠ d.name := hnew c hcmem
  have hcf : changeFieldStmts tn d c =
      [Stmt.renameColumn tn c.name d.name, Stmt.alterColumnType tn c.name d] := by
    simp [changeFieldStmts, hrename]
  have hp2 : pass2 tn [d] cs [] =
      ([Stmt.renameColumn tn c.name d.name, Stmt.alterColumnType tn c.name d],
        cs.filter (fun d2 => !(d2.name == c.name)), ["d"].map (fun _ => d.name)) := by
    rw [pass2]
    simp only [List.contains, List.elem_nil, Bool.false_eq_true, if_false, hfind, pass2, hcf]
    rfl
  simp only [changeStmts, hsrc, hdst, hp1, hp2]
  simp [pkStmts, indexStmts, buildExistingIdx]

/-- C3 witness: desired `d:int` against existing `x:varchar(5)`, `c:int`,
`e2:int` — two compatible candidates, the first (`c`) is renamed, the rest
are dropped; no add is emitted for `d`. -/
theorem change_renames_first_compatible_witness :
    changeStmts { name := "t", fields := [c3d] } { name := "t2", fields := c3cs } =
      Stmt.renameColumn "t" "c" "d" :: Stmt.alterColumnType "t" "c" c3d
        :: (c3cs.filter (fun x => !(x.name == "c"))).map (fun x => Stmt.dropColumn "t" x.name)
    ∧ fieldTypeCompare c3d c3c = true
    ∧ (∃ pre post, c3cs = pre ++ c3c :: post ∧
        ∀ x ∈ pre, fieldTypeCompare c3d x = false) := by
  have := change_renames_first_compatible c3d c3c c3cs "t" "t2" rfl rfl
    (by decide) (by decide) (by decide)
  simpa [c3c] using this

/-! ## C4 -/

/-- C4 counterexample: the claim says a failing reconciliation statement is
surfaced to the caller of `Schema.add`.  With every statement failing, the
reconciliation of `c4sch` against `c4ex` fails on its first statement (the
error does carry the statement text), yet `add` — whose inner catch logs
the error — returns without surfacing anything. -/
theorem add_swallows_change_failure :
    (runStmts (fun _ => true) (changeStmts c4sch c4ex)).2 =
      some ⟨"ALTER TABLE\n\t\"t\"\nADD\n\t\"d\" varchar(20)"⟩ ∧
    (addRun false (fun _ => true) c4sch c4ex).2 = none := by
  decide

/-- C4 (amended): when a generated statement fails during reconciliation,
the failure carries the offending statement text, aborts the remaining
statements for that schema, and propagates out of `Schema.change`;
`Schema.add`, however, catches every failure — a failed create falls into
the catch and triggers reconciliation, and a failed reconciliation is only
logged — so no failure reaches `add`'s caller. -/
theorem change_failure_aborts (fails : Stmt → Bool) (schema existing : Schema) (e : SqlError)
    (h : (runStmts fails (changeStmts schema existing)).2 = some e) :
    (∃ pre s post, changeStmts schema existing = pre ++ s :: post ∧
      (∀ x ∈ pre, fails x = false) ∧ fails s = true ∧ e.query = render s ∧
      (runStmts fails (changeStmts schema existing)).1 = pre) ∧
    (∀ probeOk, (addRun probeOk fails schema existing).2 = none) := by
  refine ⟨runStmts_failure _ _ _ h, ?_⟩
  intro probeOk
  cases probeOk with
  | false => rfl
  | true =>
      rcases hr : runStmts fails (createStmts schema) with ⟨ex, err⟩
      cases err <;> simp [addRun, hr]

/-- C4 witness: the amended theorem applied to the concrete failing run. -/
theorem change_failure_aborts_witness :
    (∃ pre s post, changeStmts c4sch c4ex = pre ++ s :: post ∧
      (∀ x ∈ pre, (fun _ : Stmt => true) x = false) ∧ (fun _ : Stmt => true) s = true ∧
      (SqlError.mk "ALTER TABLE\n\t\"t\"\nADD\n\t\"d\" varchar(20)").query = render s ∧
      (runStmts (fun _ => true) (changeStmts c4sch c4ex)).1 = pre) ∧
    (∀ probeOk, (addRun probeOk (fun _ => true) c4sch c4ex).2 = none) :=
  change_failure_aborts (fun _ => true) c4sch c4ex
    ⟨"ALTER TABLE\n\t\"t\"\nADD\n\t\"d\" varchar(20)"⟩ (by decide)

/-! ## C1 -/

/-- C1: the claim says `Schema.add` creates exactly when the existence
probe reports the table absent.  The code does the opposite: the shared
probe query (`SELECT "name"::regclass`) succeeds exactly when
`Schema.exists` reports the table present, and `add`'s `try` block runs
`Schema.create` precisely on probe success, its `catch` runs
`Schema.change` precisely on probe failure.  So `add` creates when the
probe reports the table present and reconciles when it reports it absent
— the negation of the claim, witnessed at both probe outcomes. -/
theorem add_creates_when_probe_reports_present :
    (tableExists true = true ∧ addBranch true = .create) ∧
    (tableExists false = false ∧ addBranch false = .reconcile) ∧
    ¬ (∀ b, (addBranch b = .create ↔ tableExists b = false)) := by
  decide

/-- One registration emits only statement executions, never a hook
invocation. -/
theorem addEvents_no_hook (r : RegEntry) :
    (addEvents r).all (fun e => !e.isHookRun) = true := by
  unfold addEvents
  simp [List.all_map, Function.comp, Event.isHookRun]

/-- The whole registration phase emits no hook invocation. -/
theorem startupEvents_all_exec (regs : List RegEntry) :
    (startupEvents regs).all (fun e => !e.isHookRun) = true := by
  induction regs with
  | nil => rfl
  | cons r rest ih =>
      simp only [startupEvents, List.map_cons, List.flatten_cons, List.all_append,
        Bool.and_eq_true]
      exact ⟨addEvents_no_hook r, ih⟩

/-! ## C8 -/

/-- C8: seeding hooks are never invoked during creation or registration
(the registration phase of the trace contains no hook invocation); the
whole trace is the registration phase followed by the single process-ready
point, at which the queued hooks — queued in registration order — run; and
with pairwise-distinct hooks each queued hook runs exactly once. -/
theorem onCreate_hooks_deferred (regs : List RegEntry) :
    ((startupEvents regs).all (fun e => !e.isHookRun) = true) ∧
    fullTrace regs = startupEvents regs ++ (queuedHooks regs).map Event.hookRun ∧
    (∀ h : Nat, (queuedHooks regs).Nodup → h ∈ queuedHooks regs →
      (readyEvents regs).count (Event.hookRun h) = 1) := by
  refine ⟨startupEvents_all_exec regs, rfl, ?_⟩
  intro h hnd hmem
  unfold readyEvents
  rw [List.count_map_of_injective _ Event.hookRun (fun a b hab => by injection hab) h]
  exact List.count_eq_one_of_mem hnd hmem

/-- C8 witness: two creating registrations with hooks 1 and 2; the
registration phase contains no hook invocation, and hook 1 runs exactly
once at the ready point. -/
theorem onCreate_hooks_deferred_witness :
    ((startupEvents c8regs).all (fun e => !e.isHookRun) = true) ∧
    (readyEvents c8regs).count (Event.hookRun 1) = 1 :=
  ⟨(onCreate_hooks_deferred c8regs).1,
   (onCreate_hooks_deferred c8regs).2.2 1 (by decide) (by decide)⟩

/-! ## C5 -/

/-- C5: the claim says `getFromTable` returns the secondary indexes and
filters out the implicit primary-key index.  The code's filter is
`row.index_name.indexOf('_pkey') === 0`, which keeps exactly the rows
whose index name *starts with* `_pkey`: on a table with primary-key index
`widgets_pkey` and secondary index `widgets_c_idx` the returned list is
empty (the secondary index is lost), while an index literally named
`_pkeyish` would be kept.  The primary key itself is reported separately,
as the claim says. -/
theorem getFromTable_keeps_only_pkey_prefixed_indexes :
    (getFromTable "widgets" (some "id") c5cols c5rows).indexes = [] ∧
    (getFromTable "widgets" (some "id") c5cols c5rows).primaryKey = some "id" ∧
    extractIndexNames
      [{ table_name := "t", index_name := "_pkeyish", column_name := "x" }] = ["x"] := by
  decide

/-! ## C6 -/

/-- C6 counterexample: the claim says a declared literal default is
returned *whatever its value*.  The source guards with the truthiness test
`if (field.defaultValue)`, so the declared literal `0` on a varchar field
is ignored and the type fallback `''` is returned instead. -/
theorem defaultValue_ignores_falsy_literal :
    c6field.defaultValue = some (.lit (.num 0)) ∧
    defaultValue c6field = .str "" ∧ JSVal.str "" ≠ .num 0 := by
  decide

/-- C6 (amended): `defaultValue(field)` returns a declared *truthy*
literal; returns the result of invoking a declared function (functions are
truthy); and otherwise — no declaration, or a falsy declared literal such
as `0`, `''` or `false` — falls back by type: `int` and `tinyint` yield
`0`, every other type yields the empty string. -/
theorem defaultValue_cases (f : Field) :
    (∀ v, f.defaultValue = some (.lit v) → jsTruthy v = true → defaultValue f = v) ∧
    (∀ r, f.defaultValue = some (.func r) → defaultValue f = r) ∧
    (f.defaultValue = none → defaultValue f = typeDefault f.type) ∧
    (∀ v, f.defaultValue = some (.lit v) → jsTruthy v = false →
      defaultValue f = typeDefault f.type) ∧
    ((f.type = "int" ∨ f.type = "tinyint") → typeDefault f.type = .num 0) ∧
    (f.type ≠ "int" → f.type ≠ "tinyint" → typeDefault f.type = .str "") := by
  refine ⟨?_, ?_, ?_, ?_, ?_, ?_⟩
  · intro v hv ht
    simp [defaultValue, hv, defaultTruthy, ht]
  · intro r hr
    simp [defaultValue, hr, defaultTruthy]
  · intro h
    simp [defaultValue, h]
  · intro v hv ht
    simp [defaultValue, hv, defaultTruthy, ht]
  · rintro (h | h) <;> simp [typeDefault, h]
  · intro h1 h2
    simp [typeDefault, h1, h2]

/-- C6 witness: a truthy declared literal is returned. -/
theorem defaultValue_cases_witness : defaultValue c6intField = .num 7 :=
  (defaultValue_cases c6intField).1 (.num 7) rfl (by decide)

/-! ## C9 -/

/-- C9: the driver's `quote` returns `NULL` for null/undefined, `'1'` for
`true` and anything loosely equal to `'yes'`, `'0'` for `false` and
anything loosely equal to `'no'`, and otherwise the value coerced to a
string, backslash-escaped and wrapped in single quotes; in particular the
strings `yes` and `no` are never embedded verbatim. -/
theorem quote_rules :
    (pgQuote .null = "NULL" ∧ pgQuote .undef = "NULL") ∧
    (pgQuote (.bool true) = "'1'" ∧ ∀ v, jsLooseEqYesNo v "yes" = true → pgQuote v = "'1'") ∧
    (pgQuote (.bool false) = "'0'" ∧ ∀ v, jsLooseEqYesNo v "no" = true → pgQuote v = "'0'") ∧
    (∀ s : String, s ≠ "yes" → s ≠ "no" → pgQuote (.str s) = "'" ++ addslashes s ++ "'") ∧
    (∀ n : Int, pgQuote (.num n) = "'" ++ addslashes (toString n) ++ "'") ∧
    (pgQuote (.str "yes") ≠ "'yes'" ∧ pgQuote (.str "no") ≠ "'no'") := by
  refine ⟨⟨by decide, by decide⟩, ⟨by decide, ?_⟩, ⟨by decide, ?_⟩, ?_, ?_, by decide, by decide⟩
  · intro v hv
    cases v <;> simp [jsLooseEqYesNo] at hv
    subst hv
    decide
  · intro v hv
    cases v <;> simp [jsLooseEqYesNo] at hv
    subst hv
    decide
  · intro s h1 h2
    simp [pgQuote, jsLooseEqYesNo, jsToString, h1, h2]
  · intro n
    simp [pgQuote, jsLooseEqYesNo, jsToString]

/-- C9 witness: an ordinary string is escaped and quoted. -/
theorem quote_rules_witness :
    pgQuote (.str "abc") = "'" ++ addslashes "abc" ++ "'" :=
  quote_rules.2.2.2.1 "abc" (by decide) (by decide)

/-! ## C10 -/

/-- C10: the constructor throws the invalid-configuration error exactly
when the config is absent or one of user/password/database is undefined;
otherwise it returns a driver whose only state is the JDBC URL computed
from the config. -/
theorem ctor_spec (c : Option PGConfig) :
    (PosgreSQLCtor c = .error "PosgreSQL constructor: invalid configuration" ↔
      c = none ∨ ∃ cfg, c = some cfg ∧
        (cfg.user.isNone || cfg.password.isNone || cfg.database.isNone) = true) ∧
    (∀ cfg, c = some cfg →
      (cfg.user.isNone || cfg.password.isNone || cfg.database.isNone) = false →
      PosgreSQLCtor c = .ok ⟨mkUrl cfg⟩ ∧
        ∃ rest, mkUrl cfg = "jdbc:postgresql://" ++ rest) := by
  constructor
  · cases c with
    | none => simp [PosgreSQLCtor]
    | some cfg =>
        by_cases h : (cfg.user.isNone || cfg.password.isNone || cfg.database.isNone) = true
        · simp only [PosgreSQLCtor, if_pos h]
          exact iff_of_true trivial (Or.inr ⟨cfg, rfl, h⟩)
        · simp only [PosgreSQLCtor, if_neg h]
          refine iff_of_false (by simp) ?_
          rintro (h' | ⟨cfg', heq, hc⟩)
          · exact Option.noConfusion h'
          · cases Option.some.inj heq
            exact h hc
  · intro cfg hc h
    subst hc
    refine ⟨by simp [PosgreSQLCtor, h], ?_⟩
    unfold mkUrl
    obtain ⟨r, hr⟩ := foldl_append_extends
      (cfg.extra.filter (fun kv => !(knownConfigOptions.contains kv.1)))
      ("jdbc:postgresql://"
        ++ (if jsTruthyStr cfg.host then optStr cfg.host else "localhost:")
        ++ (if jsTruthyInt cfg.port then renderSize cfg.port else "5432/")
        ++ optStr cfg.database
        ++ "?user=" ++ optStr cfg.user ++ "&password=" ++ optStr cfg.password)
    rw [hr]
    simp only [String.append_assoc]
    exact ⟨_, rfl⟩

/-- C10 witness: a complete configuration constructs successfully and
stores a JDBC URL. -/
theorem ctor_spec_witness :
    PosgreSQLCtor (some c10cfg) = .ok ⟨mkUrl c10cfg⟩ ∧
      ∃ rest, mkUrl c10cfg = "jdbc:postgresql://" ++ rest :=
  (ctor_spec (some c10cfg)).2 c10cfg rfl (by decide)

end DecafPG
